import Mathlib

/-!
Verification development for the `nlp-disaster-tweets` utility module
(`utils.py`): four metric evaluators (accuracy, RMSE, ROC-AUC, precision)
that run a model over a dataloader, and a confusion-matrix heatmap
renderer (`make_confusion_heatmap`).

The heatmap renderer works on exact rationals; numpy float division is
modelled by `PFloat`, a rational extended with the non-finite values
`nan`, `inf`, `-inf`, with IEEE-754-style propagation (numpy emits a
RuntimeWarning on division by zero and returns nan or inf; it does not
raise).  Signed zeros are not modelled; confusion matrices carry
non-negative entries, so the distinction never arises in the paths
verified below.
-/

/-- Numpy float value: a rational, or one of the non-finite values that
numpy division by zero produces (with a warning, never an exception). -/
inductive PFloat where
  | nan : PFloat
  | inf : PFloat
  | ninf : PFloat
  | val (q : ℚ) : PFloat
deriving DecidableEq

namespace PFloat

/-- IEEE-754 addition on `PFloat` (nan propagates; inf + (-inf) = nan). -/
def add : PFloat → PFloat → PFloat
  | nan, _ => nan
  | _, nan => nan
  | inf, ninf => nan
  | ninf, inf => nan
  | inf, _ => inf
  | _, inf => inf
  | ninf, _ => ninf
  | _, ninf => ninf
  | val a, val b => val (a + b)

/-- IEEE-754 multiplication on `PFloat` (nan propagates; inf * 0 = nan). -/
def mul : PFloat → PFloat → PFloat
  | nan, _ => nan
  | _, nan => nan
  | inf, inf => inf
  | inf, ninf => ninf
  | ninf, inf => ninf
  | ninf, ninf => inf
  | inf, val q => if q = 0 then nan else if 0 < q then inf else ninf
  | val q, inf => if q = 0 then nan else if 0 < q then inf else ninf
  | ninf, val q => if q = 0 then nan else if 0 < q then ninf else inf
  | val q, ninf => if q = 0 then nan else if 0 < q then ninf else inf
  | val a, val b => val (a * b)

/-- IEEE-754 division on `PFloat`: 0/0 = nan, x/0 = ±inf for x ≠ 0
(positive zero, as no signed zero is modelled), inf/inf = nan. -/
def div : PFloat → PFloat → PFloat
  | nan, _ => nan
  | _, nan => nan
  | inf, inf => nan
  | inf, ninf => nan
  | ninf, inf => nan
  | ninf, ninf => nan
  | inf, val q => if 0 ≤ q then inf else ninf
  | ninf, val q => if 0 ≤ q then ninf else inf
  | val _, inf => val 0
  | val _, ninf => val 0
  | val a, val b =>
    if b = 0 then (if a = 0 then nan else if 0 < a then inf else ninf)
    else val (a / b)

instance : Add PFloat := ⟨PFloat.add⟩
instance : Mul PFloat := ⟨PFloat.mul⟩
instance : Div PFloat := ⟨PFloat.div⟩

end PFloat

/-- Float division of two rationals, as numpy performs it (`a / b` with
division-by-zero producing nan or inf, not an exception). -/
def pdivQ (a b : ℚ) : PFloat := PFloat.div (PFloat.val a) (PFloat.val b)

/-- Left-pad a three-digit fractional part with zeros. -/
def pad3 (m : ℕ) : String :=
  (if m < 10 then "00" else if m < 100 then "0" else "") ++ toString m

/-- Left-pad a two-digit fractional part with zeros. -/
def pad2 (m : ℕ) : String :=
  (if m < 10 then "0" else "") ++ toString m

/-- Python format spec `0.3f` on an exact rational.  Python rounds the
nearest binary double of the value; away from decimal ties (all values
in this development) that agrees with rounding the rational itself. -/
def q3 (q : ℚ) : String :=
  let n : ℤ := round (q * 1000)
  if n < 0 then
    "-" ++ toString ((-n) / 1000) ++ "." ++ pad3 (((-n) % 1000).toNat)
  else
    toString (n / 1000) ++ "." ++ pad3 ((n % 1000).toNat)

/-- Python format spec `0.3f` on a numpy float (`nan` formats as "nan",
`inf` as "inf"). -/
def format3 : PFloat → String
  | PFloat.nan => "nan"
  | PFloat.inf => "inf"
  | PFloat.ninf => "-inf"
  | PFloat.val q => q3 q

/-- Python format spec `0:0.0f`: round to an integer, no decimal point. -/
def fmtCount (q : ℚ) : String := toString (round q)

/-- Python format spec `0:.2%`: value times 100 with two decimals and a
percent sign; `nan` formats as "nan%". -/
def fmtPct : PFloat → String
  | PFloat.nan => "nan%"
  | PFloat.inf => "inf%"
  | PFloat.ninf => "-inf%"
  | PFloat.val q =>
    let n : ℤ := round (q * 10000)
    if n < 0 then
      "-" ++ toString ((-n) / 100) ++ "." ++ pad2 (((-n) % 100).toNat) ++ "%"
    else
      toString (n / 100) ++ "." ++ pad2 ((n % 100).toNat) ++ "%"

/-! The confusion matrix `cf` is a numpy 2-D array, embedded row-major as
a list of rows of rationals. -/

/-- numpy `cf.size`: the number of cells. -/
def npSize (cf : List (List ℚ)) : ℕ := cf.flatten.length

/-- numpy `np.sum(cf)`: the grand total over all cells. -/
def npSum (cf : List (List ℚ)) : ℚ := cf.flatten.sum

/-- numpy `np.trace(cf)`: sum of the main diagonal (`cf` is square in
every use in the repository). -/
def npTrace (cf : List (List ℚ)) : ℚ :=
  ((List.range cf.length).map (fun i => (cf.getD i []).getD i 0)).sum

/-- `cf[i, j]`. -/
def cell (cf : List (List ℚ)) (i j : ℕ) : ℚ := (cf.getD i []).getD j 0

/-- Python `sum(cf[:, j])`: the sum of column `j`. -/
def colSum (cf : List (List ℚ)) (j : ℕ) : ℚ :=
  (cf.map (fun r => r.getD j 0)).sum

/-- Python `sum(cf[i, :])`: the sum of row `i`. -/
def rowSum (cf : List (List ℚ)) (i : ℕ) : ℚ := (cf.getD i []).sum

/-- `accuracy = np.trace(cf) / float(np.sum(cf))` (utils.py line 185). -/
def accuracyOf (cf : List (List ℚ)) : PFloat := pdivQ (npTrace cf) (npSum cf)

/-- `precision = cf[1, 1] / sum(cf[:, 1])` (utils.py line 190). -/
def precisionOf (cf : List (List ℚ)) : PFloat := pdivQ (cell cf 1 1) (colSum cf 1)

/-- `recall = cf[1, 1] / sum(cf[1, :])` (utils.py line 191). -/
def recallOf (cf : List (List ℚ)) : PFloat := pdivQ (cell cf 1 1) (rowSum cf 1)

/-- `f1_score = 2 * precision * recall / (precision + recall)`
(utils.py line 192). -/
def f1Of (cf : List (List ℚ)) : PFloat :=
  (PFloat.val 2 * precisionOf cf * recallOf cf) / (precisionOf cf + recallOf cf)

/-- The `stats_text` caption of `make_confusion_heatmap` (lines 183-199):
empty when `sum_stats` is off, the four binary-case lines when `len(cf)`
is 2, a single accuracy line otherwise. -/
def statsText (cf : List (List ℚ)) (sum_stats : Bool) : String :=
  if sum_stats then
    if cf.length = 2 then
      "\n\nAccuracy=" ++ format3 (accuracyOf cf) ++
      "\nPrecision=" ++ format3 (precisionOf cf) ++
      "\nRecall=" ++ format3 (recallOf cf) ++
      "\nF1 Score=" ++ format3 (f1Of cf)
    else
      "\n\nAccuracy=" ++ format3 (accuracyOf cf)
  else ""

/-- `blanks = ["" for i in range(cf.size)]` (line 157). -/
def blanks (cf : List (List ℚ)) : List String := List.replicate (npSize cf) ""

/-- `group_labels` (lines 159-162): the group-name components.  The
Python guard `if group_names and len(group_names) == cf.size` is falsy
for `None`, for the empty list, and for any length mismatch. -/
def groupLabelsOf (cf : List (List ℚ)) (group_names : Option (List String)) : List String :=
  match group_names with
  | some ns =>
    if ns ≠ [] ∧ ns.length = npSize cf then ns.map (fun v => v ++ "\n")
    else blanks cf
  | none => blanks cf

/-- `group_counts` (lines 164-167): formatted counts over `cf.flatten()`. -/
def groupCountsOf (cf : List (List ℚ)) (count : Bool) : List String :=
  if count then cf.flatten.map (fun v => fmtCount v ++ "\n") else blanks cf

/-- `group_percentages` (lines 169-174): each cell divided by the grand
total, percent-formatted. -/
def groupPercentsOf (cf : List (List ℚ)) (percent : Bool) : List String :=
  if percent then cf.flatten.map (fun v => fmtPct (pdivQ v (npSum cf)))
  else blanks cf

/-- `box_labels` (lines 176-179): zip the three component lists and trim
the concatenation, row-major (the reshape on line 180 only changes the
shape, not the cell strings). -/
def boxLabels (cf : List (List ℚ)) (group_names : Option (List String))
    (count percent : Bool) : List String :=
  (List.zip (List.zip (groupLabelsOf cf group_names) (groupCountsOf cf count))
      (groupPercentsOf cf percent)).map
    (fun x => (x.1.1 ++ x.1.2 ++ x.2).trim)

/-- The `categories` argument of `make_confusion_heatmap`: the string
sentinel "auto", an explicit label list, or `False` (assigned by the
code itself when `xyticks` is off, suppressing tick labels). -/
inductive Cats where
  | auto : Cats
  | labels (ls : List String) : Cats
  | off : Cats
deriving DecidableEq

/-- The figure state produced by `make_confusion_heatmap` via seaborn
and matplotlib: heatmap data, per-cell annotations, styling, tick
labels, axis labels and title. -/
structure HeatmapFigure where
  data : List (List ℚ)
  annot : List String
  cmap : String
  cbar : Bool
  xticklabels : Cats
  yticklabels : Cats
  figsize : ℚ × ℚ
  xlabel : String
  ylabel : Option String
  title : Option String
deriving DecidableEq

/-- matplotlib default `rcParams["figure.figsize"]` = (6.4, 4.8). -/
def rcFigsize : ℚ × ℚ := (32 / 5, 24 / 5)

/-- `make_confusion_heatmap` (utils.py lines 121-229).  Arguments in
source order; the figure record collects every side effect on the
current matplotlib figure.  Python truthiness of `title` treats the
empty string like `None`. -/
def make_confusion_heatmap (cf : List (List ℚ))
    (group_names : Option (List String)) (categories : Cats)
    (count percent cbar xyticks xyplotlabels sum_stats : Bool)
    (figsize : Option (ℚ × ℚ)) (cmap : String) (title : Option String) :
    HeatmapFigure :=
  let box_labels := boxLabels cf group_names count percent
  let stats_text := statsText cf sum_stats
  let figsize2 := match figsize with | none => rcFigsize | some s => s
  let categories2 := if xyticks = false then Cats.off else categories
  HeatmapFigure.mk cf box_labels cmap cbar categories2 categories2 figsize2
    (if xyplotlabels then "Predicted label" ++ stats_text else stats_text)
    (if xyplotlabels then some "True label" else none)
    (match title with
     | some t => if t = "" then none else some t
     | none => none)

/-!
The metric evaluators (utils.py lines 16-118).  Model outputs and
predicted probabilities are exact reals; labels are naturals.  A
dataloader is a finite list of `(features, labels)` batches; the
feature type is an arbitrary `phi` (the `.to(device)` move is the
identity in this embedding).  The Python accumulators start as `None`
and are replaced on the first batch, so the loop state is an `Option`
of the pair of accumulators; a `None` that reaches `.numpy()` is the
`AttributeError` a run on an empty dataloader raises, modelled as the
`Except.error` below.
-/

/-- `torch.sigmoid`: the logistic function, applied element-wise. -/
noncomputable def sigmoid (x : ℝ) : ℝ := 1 / (1 + Real.exp (-x))

/-- First index of the maximum of a list (torch.argmax semantics: ties
resolve to the first maximal value).  `best` is the best index so far,
`bv` its value, `i` the index of the head of the remaining list. -/
def argmaxAux {α : Type} [LinearOrder α] : ℕ → α → ℕ → List α → ℕ
  | best, _, _, [] => best
  | best, bv, i, x :: xs =>
    if bv < x then argmaxAux i x (i + 1) xs else argmaxAux best bv (i + 1) xs

/-- `torch.argmax(v, dim=...)` on one row (rows are non-empty whenever
the model has at least one output class; torch errors on an empty dim,
which no claim exercises). -/
def argmaxIdx {α : Type} [LinearOrder α] : List α → ℕ
  | [] => 0
  | x :: xs => argmaxAux 0 x 1 xs

/-- One iteration of the batch loop shared verbatim by the four
evaluators (e.g. utils.py lines 21-33): run the model, apply
`torch.sigmoid`, and either initialise the accumulators (first batch)
or `torch.cat` onto them. -/
noncomputable def accumStep {φ : Type} (model : φ → List (List ℝ))
    (st : Option (List (List ℝ) × List ℕ)) (b : φ × List ℕ) :
    Option (List (List ℝ) × List ℕ) :=
  let outputs := model b.1
  match st with
  | none => some (outputs.map (fun row => row.map sigmoid), b.2)
  | some s =>
    some (s.1 ++ outputs.map (fun row => row.map sigmoid), s.2 ++ b.2)

/-- The full batch loop: fold `accumStep` over the dataloader starting
from the `None` accumulators. -/
noncomputable def accumulate {φ : Type} (model : φ → List (List ℝ))
    (dataloader : List (φ × List ℕ)) : Option (List (List ℝ) × List ℕ) :=
  dataloader.foldl (accumStep model) none

/-- The error message of dereferencing the still-`None` accumulators
after an empty dataloader. -/
def noneMsg : String := "AttributeError: NoneType object has no attribute numpy"

/-- The sklearn message for a single-class ROC-AUC input. -/
def oneClassMsg : String :=
  "Only one class present in y_true. ROC AUC score is not defined in that case."

/-- sklearn mismatched-length message. -/
def lengthMsg : String :=
  "Found input variables with inconsistent numbers of samples"

/-- sklearn `accuracy_score`: fraction of positions where the true label
equals the predicted label; errors on mismatched lengths. -/
noncomputable def accuracy_score (y_true y_pred : List ℕ) : Except String ℝ :=
  if y_true.length = y_pred.length then
    Except.ok ((((y_true.zip y_pred).countP fun p => p.1 == p.2 : ℕ) : ℝ) /
      (y_true.length : ℝ))
  else Except.error lengthMsg

/-- sklearn `precision_score` with the default positive label 1 and
`zero_division="warn"` (returns 0.0 when no positives are predicted):
true positives over predicted positives. -/
noncomputable def precision_score (y_true y_pred : List ℕ) : Except String ℝ :=
  if y_true.length = y_pred.length then
    let pairs := y_true.zip y_pred
    let tp := pairs.countP fun p => p.1 == 1 && p.2 == 1
    let fp := pairs.countP fun p => p.1 != 1 && p.2 == 1
    Except.ok (if tp + fp = 0 then 0 else (tp : ℝ) / ((tp : ℝ) + (fp : ℝ)))
  else Except.error lengthMsg

/-- sklearn `mean_squared_error(..., squared=False)`: root mean squared
difference between labels and scores. -/
noncomputable def mean_squared_error_rooted (y_true : List ℕ)
    (y_pred : List ℝ) : Except String ℝ :=
  if y_true.length = y_pred.length then
    Except.ok (Real.sqrt
      (((y_true.zip y_pred).map fun p => ((p.1 : ℝ) - p.2) ^ 2).sum /
        (y_true.length : ℝ)))
  else Except.error lengthMsg

/-- The Mann-Whitney form of the area under the ROC curve: the fraction
of (positive, negative) pairs ranked correctly, ties counting half. -/
noncomputable def aucValue (y_true : List ℕ) (y_score : List ℝ) : ℝ :=
  let pairs := y_true.zip y_score
  let pos := (pairs.filter fun p => p.1 == 1).map fun p => p.2
  let neg := (pairs.filter fun p => p.1 != 1).map fun p => p.2
  ((pos.map fun s =>
      ((neg.map fun t => if t < s then (1 : ℝ) else if t = s then 1 / 2 else 0).sum)).sum) /
    ((pos.length : ℝ) * (neg.length : ℝ))

/-- Modelled from the spec: sklearn `roc_auc_score` is an external
library call whose code is not in this repository; per the spec it is
"undefined/errors if labels contain only one class" and must "surface
as an error, not a silent default", and otherwise computes the standard
area under the ROC curve (spec glossary). -/
noncomputable def roc_auc_score (y_true : List ℕ) (y_score : List ℝ) :
    Except String ℝ :=
  if y_true.dedup.length < 2 then Except.error oneClassMsg
  else Except.ok (aucValue y_true y_score)

/-- `compute_accuracy` (utils.py lines 16-39): run the batch loop, then
`accuracy_score(Y_true.numpy(), torch.argmax(predictions, dim=1)...)`. -/
noncomputable def compute_accuracy {φ : Type} (model : φ → List (List ℝ))
    (dataloader : List (φ × List ℕ)) : Except String ℝ :=
  match accumulate model dataloader with
  | none => Except.error noneMsg
  | some s => accuracy_score s.2 (s.1.map argmaxIdx)

/-- `compute_rmse` (utils.py lines 42-66): run the batch loop, then
`mean_squared_error(Y_true.numpy(), predictions[:, 1], squared=False)`. -/
noncomputable def compute_rmse {φ : Type} (model : φ → List (List ℝ))
    (dataloader : List (φ × List ℕ)) : Except String ℝ :=
  match accumulate model dataloader with
  | none => Except.error noneMsg
  | some s => mean_squared_error_rooted s.2 (s.1.map fun row => row.getD 1 0)

/-- `compute_roc_auc_score` (utils.py lines 69-91): run the batch loop,
then `roc_auc_score(Y_true.numpy(), predictions[:, 1])`. -/
noncomputable def compute_roc_auc_score {φ : Type} (model : φ → List (List ℝ))
    (dataloader : List (φ × List ℕ)) : Except String ℝ :=
  match accumulate model dataloader with
  | none => Except.error noneMsg
  | some s => roc_auc_score s.2 (s.1.map fun row => row.getD 1 0)

/-- `compute_precision_score` (utils.py lines 94-118): run the batch
loop, then `precision_score(Y_true.numpy(), torch.argmax(...))`. -/
noncomputable def compute_precision_score {φ : Type} (model : φ → List (List ℝ))
    (dataloader : List (φ × List ℕ)) : Except String ℝ :=
  match accumulate model dataloader with
  | none => Except.error noneMsg
  | some s => precision_score s.2 (s.1.map argmaxIdx)

/-- Hypothetical variant of `accumStep` with the sigmoid activation
omitted, for the algebraic comparison of C10. -/
def accumStepRaw {φ : Type} (model : φ → List (List ℝ))
    (st : Option (List (List ℝ) × List ℕ)) (b : φ × List ℕ) :
    Option (List (List ℝ) × List ℕ) :=
  let outputs := model b.1
  match st with
  | none => some (outputs, b.2)
  | some s => some (s.1 ++ outputs, s.2 ++ b.2)

/-- Hypothetical batch loop without the sigmoid activation. -/
def accumulateRaw {φ : Type} (model : φ → List (List ℝ))
    (dataloader : List (φ × List ℕ)) : Option (List (List ℝ) × List ℕ) :=
  dataloader.foldl (accumStepRaw model) none

/-- Hypothetical `compute_accuracy` with the sigmoid step omitted. -/
noncomputable def compute_accuracy_nosig {φ : Type} (model : φ → List (List ℝ))
    (dataloader : List (φ × List ℕ)) : Except String ℝ :=
  match accumulateRaw model dataloader with
  | none => Except.error noneMsg
  | some s => accuracy_score s.2 (s.1.map argmaxIdx)

/-- Hypothetical `compute_precision_score` with the sigmoid step omitted. -/
noncomputable def compute_precision_nosig {φ : Type} (model : φ → List (List ℝ))
    (dataloader : List (φ × List ℕ)) : Except String ℝ :=
  match accumulateRaw model dataloader with
  | none => Except.error noneMsg
  | some s => precision_score s.2 (s.1.map argmaxIdx)

/-- Number of prediction rows held by a loop state (`None` holds none). -/
def predCount : Option (List (List ℝ) × List ℕ) → ℕ
  | none => 0
  | some s => s.1.length

/-- Number of label rows held by a loop state. -/
def labelCount : Option (List (List ℝ) × List ℕ) → ℕ
  | none => 0
  | some s => s.2.length

/-- The predictions accumulated over a whole dataloader: per-batch model
outputs through the sigmoid, concatenated in iteration order. -/
noncomputable def allPreds {φ : Type} (model : φ → List (List ℝ))
    (dataloader : List (φ × List ℕ)) : List (List ℝ) :=
  (dataloader.map fun b => (model b.1).map fun row => row.map sigmoid).flatten

/-- The labels accumulated over a whole dataloader, in iteration order. -/
def allLabels {φ : Type} (dataloader : List (φ × List ℕ)) : List ℕ :=
  (dataloader.map fun b => b.2).flatten

/-!  Helper lemmas. -/

lemma sigmoid_strictMono : StrictMono sigmoid := by
  intro a b hab
  unfold sigmoid
  have hb : Real.exp (-b) < Real.exp (-a) := Real.exp_lt_exp.mpr (neg_lt_neg hab)
  have h1 : (0 : ℝ) < 1 + Real.exp (-b) := by positivity
  have h2 : 1 + Real.exp (-b) < 1 + Real.exp (-a) := by linarith
  exact one_div_lt_one_div_of_lt h1 h2

lemma argmaxAux_map {α β : Type} [LinearOrder α] [LinearOrder β]
    {f : α → β} (hf : StrictMono f) (l : List α) :
    ∀ (best : ℕ) (bv : α) (i : ℕ),
      argmaxAux best (f bv) i (l.map f) = argmaxAux best bv i l := by
  induction l with
  | nil => intro best bv i; rfl
  | cons x xs ih =>
    intro best bv i
    simp only [List.map_cons, argmaxAux]
    by_cases h : bv < x
    · rw [if_pos (hf h), if_pos h, ih]
    · rw [if_neg (fun hc => h (hf.lt_iff_lt.mp hc)), if_neg h, ih]

lemma argmaxIdx_map {α β : Type} [LinearOrder α] [LinearOrder β]
    {f : α → β} (hf : StrictMono f) (l : List α) :
    argmaxIdx (l.map f) = argmaxIdx l := by
  cases l with
  | nil => rfl
  | cons x xs => simp only [List.map_cons, argmaxIdx]; exact argmaxAux_map hf xs 0 x 1

lemma argmaxIdx_pair (a b : ℝ) : argmaxIdx [a, b] = if a < b then 1 else 0 := by
  simp only [argmaxIdx, argmaxAux]

lemma accum_counts {φ : Type} (model : φ → List (List ℝ))
    (bs : List (φ × List ℕ)) :
    ∀ st : Option (List (List ℝ) × List ℕ),
      predCount (bs.foldl (accumStep model) st) =
        predCount st + (bs.map fun b => (model b.1).length).sum ∧
      labelCount (bs.foldl (accumStep model) st) =
        labelCount st + (bs.map fun b => b.2.length).sum := by
  induction bs with
  | nil => intro st; simp
  | cons b bs ih =>
    intro st
    have hstep :
        predCount (accumStep model st b) = predCount st + (model b.1).length ∧
        labelCount (accumStep model st b) = labelCount st + b.2.length := by
      cases st with
      | none => simp [accumStep, predCount, labelCount]
      | some s => simp [accumStep, predCount, labelCount]
    rcases ih (accumStep model st b) with ⟨hp, hl⟩
    constructor
    · simp only [List.foldl_cons, List.map_cons, List.sum_cons]
      rw [hp, hstep.1]
      try omega
    · simp only [List.foldl_cons, List.map_cons, List.sum_cons]
      rw [hl, hstep.2]
      try omega

lemma foldl_accumStep_some {φ : Type} (model : φ → List (List ℝ))
    (bs : List (φ × List ℕ)) :
    ∀ (p : List (List ℝ)) (y : List ℕ),
      bs.foldl (accumStep model) (some (p, y)) =
        some (p ++ allPreds model bs, y ++ allLabels bs) := by
  induction bs with
  | nil => intro p y; simp [allPreds, allLabels]
  | cons b bs ih =>
    intro p y
    simp only [List.foldl_cons, accumStep, ih, allPreds, allLabels,
      List.map_cons, List.flatten_cons, List.append_assoc]

lemma accumulate_eq {φ : Type} (model : φ → List (List ℝ))
    (bs : List (φ × List ℕ)) (hne : bs ≠ []) :
    accumulate model bs = some (allPreds model bs, allLabels bs) := by
  cases bs with
  | nil => exact absurd rfl hne
  | cons b bs =>
    show (List.foldl (accumStep model) (accumStep model none b) bs) = _
    rw [show accumStep model none b =
        some ((model b.1).map fun row => row.map sigmoid, b.2) from rfl]
    rw [foldl_accumStep_some]
    simp [allPreds, allLabels]

lemma length_allPreds {φ : Type} (model : φ → List (List ℝ))
    (bs : List (φ × List ℕ)) (h : ∀ b ∈ bs, (model b.1).length = b.2.length) :
    (allPreds model bs).length = (allLabels bs).length := by
  unfold allPreds allLabels
  rw [List.length_flatten, List.length_flatten, List.map_map, List.map_map]
  congr 1
  refine List.map_congr_left ?_
  intro b hb
  simp [h b hb]

lemma getD_replicate_blank (n i : ℕ) : (List.replicate n "").getD i "" = "" := by
  induction n generalizing i with
  | zero => cases i <;> rfl
  | succ n ih =>
    cases i with
    | zero => rfl
    | succ i => rw [List.replicate_succ, List.getD_cons_succ]; exact ih i

lemma zip3_map_getD (a b c : List String) (i : ℕ)
    (ha : i < a.length) (hb : i < b.length) (hc : i < c.length) :
    ((List.zip (List.zip a b) c).map
        (fun x => (x.1.1 ++ x.1.2 ++ x.2).trim)).getD i "" =
      (a.getD i "" ++ b.getD i "" ++ c.getD i "").trim := by
  induction a generalizing b c i with
  | nil => simp at ha
  | cons x xs ih =>
    cases b with
    | nil => simp at hb
    | cons y ys =>
      cases c with
      | nil => simp at hc
      | cons z zs =>
        cases i with
        | zero => rfl
        | succ i =>
          simp only [List.zip_cons_cons, List.map_cons, List.getD_cons_succ]
          exact ih ys zs i (by simpa using ha) (by simpa using hb)
            (by simpa using hc)

lemma dedup_length_lt_two (l : List ℕ) (c : ℕ) (h : ∀ x ∈ l, x = c) :
    l.dedup.length < 2 := by
  cases e : l.dedup with
  | nil => simp
  | cons a t =>
    have hnd : (a :: t).Nodup := e ▸ l.nodup_dedup
    have hmem : ∀ x ∈ a :: t, x = c := by
      intro x hx
      exact h x (List.mem_dedup.mp (e ▸ hx))
    have ht : t = [] := by
      by_contra hne
      rcases List.exists_mem_of_ne_nil t hne with ⟨x, hx⟩
      have hxa : x = a := (hmem x (List.mem_cons_of_mem a hx)).trans
        (hmem a (List.mem_cons_self a t)).symm
      exact (List.nodup_cons.mp hnd).1 (hxa ▸ hx)
    simp [ht]

lemma mapSt_accum {φ : Type} (model : φ → List (List ℝ))
    (bs : List (φ × List ℕ)) :
    ∀ st : Option (List (List ℝ) × List ℕ),
      bs.foldl (accumStep model)
          (st.map fun s => (s.1.map fun row => row.map sigmoid, s.2)) =
        (bs.foldl (accumStepRaw model) st).map
          (fun s => (s.1.map fun row => row.map sigmoid, s.2)) := by
  induction bs with
  | nil => intro st; rfl
  | cons b bs ih =>
    intro st
    simp only [List.foldl_cons]
    rw [show accumStep model
          (st.map fun s => (s.1.map fun row => row.map sigmoid, s.2)) b =
        (accumStepRaw model st b).map
          (fun s => (s.1.map fun row => row.map sigmoid, s.2)) from ?_, ih]
    cases st with
    | none => rfl
    | some s => simp [accumStep, accumStepRaw]

lemma accumulate_eq_raw {φ : Type} (model : φ → List (List ℝ))
    (bs : List (φ × List ℕ)) :
    accumulate model bs =
      (accumulateRaw model bs).map
        (fun s => (s.1.map fun row => row.map sigmoid, s.2)) := by
  have := mapSt_accum model bs none
  simpa [accumulate, accumulateRaw] using this

lemma length_groupLabelsOf (cf : List (List ℚ)) (gn : Option (List String)) :
    (groupLabelsOf cf gn).length = npSize cf := by
  cases gn with
  | none => simp [groupLabelsOf, blanks]
  | some ns =>
    show (if ns ≠ [] ∧ ns.length = npSize cf then ns.map (fun v => v ++ "\n")
      else blanks cf).length = npSize cf
    by_cases hc : ns ≠ [] ∧ ns.length = npSize cf
    · rw [if_pos hc, List.length_map, hc.2]
    · rw [if_neg hc]; simp [blanks]

lemma length_groupCountsOf (cf : List (List ℚ)) (c : Bool) :
    (groupCountsOf cf c).length = npSize cf := by
  cases c <;> simp [groupCountsOf, blanks, npSize, Function.comp_def]

lemma length_groupPercentsOf (cf : List (List ℚ)) (p : Bool) :
    (groupPercentsOf cf p).length = npSize cf := by
  cases p <;> simp [groupPercentsOf, blanks, npSize, Function.comp_def]

/-!  Claim theorems. -/

/-- C1: the claim says a zero precision/recall/F1 denominator in
`make_confusion_heatmap` with `sum_stats` on is reported as an explicit
error.  The code instead performs the numpy division, which yields NaN,
and formats that NaN straight into the caption: on `[[50, 0], [5, 0]]`
(second column sums to zero) the figure is produced normally and its
caption reads `Precision=nan` / `F1 Score=nan`. -/
theorem nan_propagates_into_caption :
    precisionOf [[(50 : ℚ), 0], [5, 0]] = PFloat.nan ∧
    f1Of [[(50 : ℚ), 0], [5, 0]] = PFloat.nan ∧
    statsText [[(50 : ℚ), 0], [5, 0]] true =
      "\n\nAccuracy=0.909\nPrecision=nan\nRecall=0.000\nF1 Score=nan" ∧
    (make_confusion_heatmap [[(50 : ℚ), 0], [5, 0]] none Cats.auto true true
        true true true true none "Blues" none).xlabel =
      "Predicted label\n\nAccuracy=0.909\nPrecision=nan\nRecall=0.000\nF1 Score=nan" := by
  with_unfolding_all decide

/-- C2: for `[[50, 10], [5, 35]]` with `sum_stats` on, the caption holds
exactly accuracy 0.850 (= trace/total = 17/20), precision 0.778
(= cf[1,1]/column-1 sum = 7/9), recall 0.875 (= cf[1,1]/row-1 sum = 7/8)
and F1 0.824 (= 2pr/(p+r) = 14/17), each to three decimal places. -/
theorem summary_caption_values :
    accuracyOf [[(50 : ℚ), 10], [5, 35]] = PFloat.val (17 / 20) ∧
    precisionOf [[(50 : ℚ), 10], [5, 35]] = PFloat.val (7 / 9) ∧
    recallOf [[(50 : ℚ), 10], [5, 35]] = PFloat.val (7 / 8) ∧
    f1Of [[(50 : ℚ), 10], [5, 35]] = PFloat.val (14 / 17) ∧
    statsText [[(50 : ℚ), 10], [5, 35]] true =
      "\n\nAccuracy=0.850\nPrecision=0.778\nRecall=0.875\nF1 Score=0.824" ∧
    (make_confusion_heatmap [[(50 : ℚ), 10], [5, 35]] none Cats.auto true true
        true true true true none "Blues" none).xlabel =
      "Predicted label\n\nAccuracy=0.850\nPrecision=0.778\nRecall=0.875\nF1 Score=0.824" := by
  with_unfolding_all decide

/-- C3: every cell annotation is the trimmed concatenation, in order, of
the group-name component, the count component and the percentage
component; a disabled component contributes the empty string; and on
`[[50, 10], [5, 35]]` with count and percent on, cell (0,0) is labelled
`"50\n50.00%"`. -/
theorem cell_label_concatenation :
    (∀ (cf : List (List ℚ)) (gn : Option (List String)) (count percent : Bool)
        (i : ℕ), i < npSize cf →
      (boxLabels cf gn count percent).getD i "" =
        ((groupLabelsOf cf gn).getD i "" ++ (groupCountsOf cf count).getD i "" ++
          (groupPercentsOf cf percent).getD i "").trim) ∧
    (∀ (cf : List (List ℚ)) (i : ℕ),
      (groupLabelsOf cf none).getD i "" = "" ∧
      (groupCountsOf cf false).getD i "" = "" ∧
      (groupPercentsOf cf false).getD i "" = "") ∧
    (boxLabels [[(50 : ℚ), 10], [5, 35]] none true true).getD 0 "" =
      "50\n50.00%" := by
  refine ⟨?_, ?_, by with_unfolding_all decide⟩
  · intro cf gn count percent i hi
    unfold boxLabels
    exact zip3_map_getD _ _ _ i
      (by rw [length_groupLabelsOf]; exact hi)
      (by rw [length_groupCountsOf]; exact hi)
      (by rw [length_groupPercentsOf]; exact hi)
  · intro cf i
    exact ⟨getD_replicate_blank _ i, getD_replicate_blank _ i,
      getD_replicate_blank _ i⟩

/-- Witness for C3 at cell (0,0) of `[[50, 10], [5, 35]]`. -/
theorem cell_label_concatenation_witness :
    (boxLabels [[(50 : ℚ), 10], [5, 35]] none true true).getD 0 "" =
      ((groupLabelsOf [[(50 : ℚ), 10], [5, 35]] none).getD 0 "" ++
        (groupCountsOf [[(50 : ℚ), 10], [5, 35]] true).getD 0 "" ++
        (groupPercentsOf [[(50 : ℚ), 10], [5, 35]] true).getD 0 "").trim :=
  cell_label_concatenation.1 [[(50 : ℚ), 10], [5, 35]] none true true 0
    (by decide)

/-- C7: when `group_names` is supplied with a length different from the
cell count, the names are silently ignored — the figure produced is
identical to the one produced with no group names, and no error path
exists (the renderer is a total function). -/
theorem group_names_mismatch_ignored (cf : List (List ℚ)) (names : List String)
    (categories : Cats) (count percent cbar xyticks xyplotlabels sum_stats : Bool)
    (figsize : Option (ℚ × ℚ)) (cmap : String) (title : Option String)
    (h : names.length ≠ npSize cf) :
    make_confusion_heatmap cf (some names) categories count percent cbar xyticks
        xyplotlabels sum_stats figsize cmap title =
      make_confusion_heatmap cf none categories count percent cbar xyticks
        xyplotlabels sum_stats figsize cmap title := by
  have hng : groupLabelsOf cf (some names) = groupLabelsOf cf none := by
    show (if names ≠ [] ∧ names.length = npSize cf
        then names.map (fun v => v ++ "\n") else blanks cf) = blanks cf
    rw [if_neg (fun hc => h hc.2)]
  unfold make_confusion_heatmap boxLabels
  rw [hng]

/-- Witness for C7: two names supplied for a one-cell matrix. -/
theorem group_names_mismatch_ignored_witness :
    make_confusion_heatmap [[(1 : ℚ)]] (some ["a", "b"]) Cats.auto true true true
        true true true none "Blues" none =
      make_confusion_heatmap [[(1 : ℚ)]] none Cats.auto true true true true true
        true none "Blues" none :=
  group_names_mismatch_ignored [[(1 : ℚ)]] ["a", "b"] Cats.auto true true true
    true true true none "Blues" none (by decide)

/-- C8: with `xyticks` disabled the code overwrites `categories` with
`False` before handing it to the heatmap, so both axes lose their tick
labels whatever `categories` the caller supplied. -/
theorem xyticks_off_suppresses_ticks (cf : List (List ℚ))
    (gn : Option (List String)) (categories : Cats)
    (count percent cbar xyplotlabels sum_stats : Bool)
    (figsize : Option (ℚ × ℚ)) (cmap : String) (title : Option String) :
    (make_confusion_heatmap cf gn categories count percent cbar false
        xyplotlabels sum_stats figsize cmap title).xticklabels = Cats.off ∧
    (make_confusion_heatmap cf gn categories count percent cbar false
        xyplotlabels sum_stats figsize cmap title).yticklabels = Cats.off :=
  ⟨rfl, rfl⟩

/-- C9: on an empty dataloader every one of the four evaluators leaves
its accumulators as `None` and the final metric call dereferences them,
so the call fails instead of returning a scalar. -/
theorem empty_loader_errors {φ : Type} (model : φ → List (List ℝ)) :
    compute_accuracy model [] = Except.error noneMsg ∧
    compute_rmse model [] = Except.error noneMsg ∧
    compute_roc_auc_score model [] = Except.error noneMsg ∧
    compute_precision_score model [] = Except.error noneMsg :=
  ⟨rfl, rfl, rfl, rfl⟩

/-- C5: under the shape consistency the loop relies on (each batch's
model output has as many rows as the batch has labels), the predictions
and labels accumulators of the batch loop shared by the four evaluators
hold equally many rows after every iteration, and exactly N rows — the
total number of examples — once the dataloader is exhausted. -/
theorem accumulators_row_counts {φ : Type} (model : φ → List (List ℝ))
    (bs : List (φ × List ℕ))
    (h : ∀ b ∈ bs, (model b.1).length = b.2.length) :
    (∀ k : ℕ,
      predCount (accumulate model (bs.take k)) =
        labelCount (accumulate model (bs.take k))) ∧
    predCount (accumulate model bs) = (bs.map fun b => b.2.length).sum ∧
    labelCount (accumulate model bs) = (bs.map fun b => b.2.length).sum := by
  have base : ∀ l : List (φ × List ℕ), (∀ b ∈ l, (model b.1).length = b.2.length) →
      predCount (accumulate model l) = (l.map fun b => b.2.length).sum ∧
      labelCount (accumulate model l) = (l.map fun b => b.2.length).sum := by
    intro l hl
    rcases accum_counts model l none with ⟨hp, hly⟩
    have hmap : (l.map fun b => (model b.1).length) = l.map fun b => b.2.length :=
      List.map_congr_left hl
    refine ⟨?_, ?_⟩
    · show predCount (l.foldl (accumStep model) none) = _
      rw [hp, hmap]
      exact Nat.zero_add _
    · show labelCount (l.foldl (accumStep model) none) = _
      rw [hly]
      exact Nat.zero_add _
  refine ⟨?_, (base bs h).1, (base bs h).2⟩
  intro k
  have hk := base (bs.take k)
    (fun b hb => h b (List.take_subset k bs hb))
  rw [hk.1, hk.2]

/-- Witness for C5: two batches of sizes 2 and 1 give 3 rows in each
accumulator. -/
theorem accumulators_row_counts_witness :
    predCount (accumulate (fun n : ℕ => List.replicate n [(0 : ℝ)])
        [(2, [1, 0]), (1, [1])]) = 3 ∧
    labelCount (accumulate (fun n : ℕ => List.replicate n [(0 : ℝ)])
        [(2, [1, 0]), (1, [1])]) = 3 := by
  have h := accumulators_row_counts (fun n : ℕ => List.replicate n [(0 : ℝ)])
    [(2, [1, 0]), (1, [1])] (by decide)
  exact ⟨h.2.1.trans (by decide), h.2.2.trans (by decide)⟩

/-- C4: whenever the labels accumulated over the dataloader all carry
one single class, `compute_roc_auc_score` fails with the single-class
error instead of returning a default scalar. -/
theorem roc_auc_single_class_errors {φ : Type} (model : φ → List (List ℝ))
    (bs : List (φ × List ℕ)) (c : ℕ) (hne : bs ≠ [])
    (_hl : allLabels bs ≠ []) (h : ∀ l ∈ allLabels bs, l = c) :
    compute_roc_auc_score model bs = Except.error oneClassMsg := by
  unfold compute_roc_auc_score
  rw [accumulate_eq model bs hne]
  show roc_auc_score (allLabels bs) _ = _
  unfold roc_auc_score
  rw [if_pos (dedup_length_lt_two (allLabels bs) c h)]

/-- Witness for C4: two batches whose labels are all the class 1. -/
theorem roc_auc_single_class_errors_witness :
    compute_roc_auc_score (fun _ : ℕ => [[(0 : ℝ), 1]]) [(0, [1]), (0, [1])] =
      Except.error oneClassMsg :=
  roc_auc_single_class_errors (fun _ : ℕ => [[(0 : ℝ), 1]]) [(0, [1]), (0, [1])]
    1 (by decide) (by decide) (by decide)

/-- C6: `compute_accuracy` returns the fraction of examples whose true
label equals the argmax of the example's predicted (sigmoid) probability
vector; it is 1.0 when every argmax matches on a non-empty data source
and 0.0 when none does. -/
theorem accuracy_is_match_fraction {φ : Type} (model : φ → List (List ℝ))
    (bs : List (φ × List ℕ))
    (h : ∀ b ∈ bs, (model b.1).length = b.2.length) (hne : bs ≠ []) :
    compute_accuracy model bs =
      Except.ok (((((allLabels bs).zip ((allPreds model bs).map argmaxIdx)).countP
          fun p => p.1 == p.2 : ℕ) : ℝ) / ((allLabels bs).length : ℝ)) ∧
    ((∀ q ∈ (allLabels bs).zip ((allPreds model bs).map argmaxIdx), q.1 = q.2) →
      allLabels bs ≠ [] → compute_accuracy model bs = Except.ok 1) ∧
    ((∀ q ∈ (allLabels bs).zip ((allPreds model bs).map argmaxIdx), q.1 ≠ q.2) →
      compute_accuracy model bs = Except.ok 0) := by
  have hlen : (allPreds model bs).length = (allLabels bs).length :=
    length_allPreds model bs h
  have hmain : compute_accuracy model bs =
      Except.ok (((((allLabels bs).zip ((allPreds model bs).map argmaxIdx)).countP
        fun p => p.1 == p.2 : ℕ) : ℝ) / ((allLabels bs).length : ℝ)) := by
    unfold compute_accuracy
    rw [accumulate_eq model bs hne]
    show accuracy_score (allLabels bs) ((allPreds model bs).map argmaxIdx) = _
    unfold accuracy_score
    rw [if_pos (by rw [List.length_map]; exact hlen.symm)]
  refine ⟨hmain, ?_, ?_⟩
  · intro hall hnl
    rw [hmain]
    have hz : ((allLabels bs).zip ((allPreds model bs).map argmaxIdx)).length =
        (allLabels bs).length := by
      rw [List.length_zip, List.length_map, hlen, min_self]
    have hcount : (((allLabels bs).zip ((allPreds model bs).map argmaxIdx)).countP
        fun p => p.1 == p.2) = (allLabels bs).length := by
      rw [List.countP_eq_length.mpr fun a ha => by simpa using hall a ha, hz]
    rw [hcount]
    congr 1
    exact div_self (Nat.cast_ne_zero.mpr
      fun h0 => hnl (List.length_eq_zero.mp h0))
  · intro hnone
    rw [hmain]
    have hcount : (((allLabels bs).zip ((allPreds model bs).map argmaxIdx)).countP
        fun p => p.1 == p.2) = 0 :=
      List.countP_eq_zero.mpr fun a ha => by simpa using hnone a ha
    rw [hcount]
    norm_num

/-- Witness for C6: a single example with raw scores (0, 1) and label 1
gives accuracy 1.0. -/
theorem accuracy_is_match_fraction_witness :
    compute_accuracy (fun _ : ℕ => [[(0 : ℝ), 1]]) [(0, [1])] = Except.ok 1 := by
  have ham : argmaxIdx [sigmoid 0, sigmoid 1] = 1 := by
    have h1 : ([(0 : ℝ), 1].map sigmoid) = [sigmoid 0, sigmoid 1] := rfl
    rw [← h1, argmaxIdx_map sigmoid_strictMono, argmaxIdx_pair,
      if_pos (by norm_num)]
  have hap : (allPreds (fun _ : ℕ => [[(0 : ℝ), 1]]) [(0, [1])]).map argmaxIdx =
      [1] := by
    show [argmaxIdx [sigmoid 0, sigmoid 1]] = [1]
    rw [ham]
  refine (accuracy_is_match_fraction (fun _ : ℕ => [[(0 : ℝ), 1]]) [(0, [1])]
    (by decide) (by decide)).2.1 ?_ (by decide)
  intro q hq
  rw [hap] at hq
  have hq1 : q = (1, 1) := by simpa [allLabels] using hq
  rw [hq1]

/-- C10: the sigmoid is strictly increasing, so the per-row argmax of
the sigmoid-transformed predictions equals the per-row argmax of the
raw model outputs, and `compute_accuracy` and `compute_precision_score`
return exactly what their sigmoid-free variants return. -/
theorem sigmoid_argmax_invariance :
    StrictMono sigmoid ∧
    (∀ rows : List (List ℝ),
      rows.map (fun r => argmaxIdx (r.map sigmoid)) = rows.map argmaxIdx) ∧
    (∀ (φ : Type) (model : φ → List (List ℝ)) (bs : List (φ × List ℕ)),
      compute_accuracy model bs = compute_accuracy_nosig model bs ∧
      compute_precision_score model bs = compute_precision_nosig model bs) := by
  refine ⟨sigmoid_strictMono, ?_, ?_⟩
  · intro rows
    exact List.map_congr_left fun r _ => argmaxIdx_map sigmoid_strictMono r
  · intro φ model bs
    have hrel := accumulate_eq_raw model bs
    constructor
    · unfold compute_accuracy compute_accuracy_nosig
      rw [hrel]
      cases accumulateRaw model bs with
      | none => rfl
      | some s =>
        show accuracy_score s.2
            ((s.1.map fun row => row.map sigmoid).map argmaxIdx) =
          accuracy_score s.2 (s.1.map argmaxIdx)
        rw [List.map_map]
        exact congrArg _
          (List.map_congr_left fun r _ => argmaxIdx_map sigmoid_strictMono r)
    · unfold compute_precision_score compute_precision_nosig
      rw [hrel]
      cases accumulateRaw model bs with
      | none => rfl
      | some s =>
        show precision_score s.2
            ((s.1.map fun row => row.map sigmoid).map argmaxIdx) =
          precision_score s.2 (s.1.map argmaxIdx)
        rw [List.map_map]
        exact congrArg _
          (List.map_congr_left fun r _ => argmaxIdx_map sigmoid_strictMono r)
